import Mathlib

/-! Verification development for the annotation persistence and text-anchor
reconstruction subsystem of the `vscode-pdfviewer` extension.

The webview side (capture, re-anchoring, summaries; `src/unnamed/part_000`)
and the host side (persistence in key-value storage; `src/src/pdfPreview.ts`)
are embedded shallowly.  Text content is modelled as `List Char`; DOM text
layers as ordered lists of text-node segments; the key-value store as an
association list from string keys to typed payloads.  Timer-based deferrals
(`setTimeout`) collapse to their eventual effect, and message posting between
webview and host is modelled by an explicit message type consumed by a host
step function.
-/

namespace PdfViewer

/-! Section:JavaScript string primitives on `List Char` -/

/-- The whitespace characters recognised by JavaScript `String.prototype.trim`
(the common ASCII subset, which is all that PDF text layers produce). -/
def isJsWhitespace (c : Char) : Bool :=
  c = ' ' || c = '\t' || c = '\n' || c = '\r' || c = '\x0b' || c = '\x0c'

/-- JavaScript `s.trim()`: strip leading and trailing whitespace. -/
def trimChars (s : List Char) : List Char :=
  ((s.dropWhile isJsWhitespace).reverse.dropWhile isJsWhitespace).reverse

/-- JavaScript `s.slice(-n)` for a nonnegative `n`.  For `n = 0` the argument
is `-0 = 0`, so the WHOLE string is returned; for `n > 0` the last
`min n s.length` characters are returned. -/
def jsSliceLast (s : List Char) (n : Nat) : List Char :=
  if n = 0 then s else s.drop (s.length - n)

/-- Whether the pattern `t` occurs at the very start of `s` (literal,
case-sensitive character comparison). -/
def matchesAt : List Char → List Char → Bool
  | _, [] => true
  | [], _ :: _ => false
  | c :: s, d :: t => c = d && matchesAt s t

/-- JavaScript `s.indexOf(t)`: index of the first occurrence of `t` as a
literal substring of `s` (`some 0` when `t` is empty), `none` standing for
the JavaScript result `-1`. -/
def firstIdx (s t : List Char) : Option Nat :=
  if matchesAt s t then some 0
  else
    match s with
    | [] => none
    | _ :: s' => (firstIdx s' t).map (· + 1)

/-! Section:Anchor records (the persisted data shapes) -/

/-- Model of `HighlightData`: the payload of a `highlightAdded` message and of an entry
of the persisted highlight list (`text`, `color`, `page`, `timestamp`,
`textBefore`, `textAfter`; the live `element` reference is ephemeral and not
persisted). -/
structure HighlightData where
  color : List Char
  text : List Char
  page : Nat
  timestamp : Nat
  textBefore : List Char
  textAfter : List Char
deriving DecidableEq

/-- Model of `AnnotationData`: an underline / strikethrough / squiggly annotation
record (field `type` of the source is called `atype` here). -/
structure AnnotationData where
  atype : List Char
  color : List Char
  text : List Char
  page : Nat
  timestamp : Nat
  textBefore : List Char
  textAfter : List Char
deriving DecidableEq

/-- Model of `CommentData`: a comment anchored to selected text. -/
structure CommentData where
  text : List Char
  comment : List Char
  color : List Char
  page : Nat
  timestamp : Nat
  textBefore : List Char
  textAfter : List Char
  author : List Char
deriving DecidableEq

/-- Model of `StickyNoteData`: a free-floating note at page-local coordinates. -/
structure StickyNoteData where
  content : List Char
  color : List Char
  page : Nat
  x : Int
  y : Int
  timestamp : Nat
deriving DecidableEq

/-- Model of `DrawingData`: a committed drawing shape (field `type` of the source is
called `dtype` here; the shape-specific geometry fields are carried as in
`getAllAnnotations`). -/
structure DrawingData where
  dtype : List Char
  color : List Char
  strokeWidth : Nat
  page : Nat
  timestamp : Nat
  x : Option Int := none
  y : Option Int := none
  width : Option Int := none
  height : Option Int := none
  radius : Option Int := none
  x1 : Option Int := none
  y1 : Option Int := none
  x2 : Option Int := none
  y2 : Option Int := none
  path : List (Int × Int) := []
deriving DecidableEq

/-! Section:The rendered page and the Re-anchoring Engine (webview side)

`restoreSingleHighlight` queries `.page[data-page-number="p"] .textLayer`
and walks its text nodes with a `TreeWalker` in document order.  We model
one rendered page: `renderedPage` is its number (a query for any other page
returns no text layer), `segs` are the text nodes of its text layer in
document order, each with the number of marker spans wrapped around it
(`depth`), and `live` is the webview-global `highlights` array, one entry
per live marker span created. -/

/-- One text node of the rendered text layer, together with the number of
marker spans currently wrapped around it. -/
structure Seg where
  content : List Char
  depth : Nat
deriving DecidableEq

/-- The state `restoreSingleHighlight` acts on: the single rendered page's
text layer and the webview `highlights` array. -/
structure PageState where
  renderedPage : Nat
  segs : List Seg
  live : List HighlightData
deriving DecidableEq

/-- The `while ((node = walker.nextNode()))` loop of `restoreSingleHighlight`:
walk the text nodes in document order; at the first node whose content
contains `t` (per `indexOf`), split it around the matched substring and wrap
the match in a new marker span (`range.surroundContents(span)` — the match
gains one wrapping span, the flanking pieces keep the node's depth), then
return.  `none` when no node contains `t`. -/
def restoreWalk (t : List Char) : List Seg → Option (List Seg)
  | [] => none
  | s :: rest =>
    match firstIdx s.content t with
    | some i =>
      some ([⟨s.content.take i, s.depth⟩, ⟨t, s.depth + 1⟩,
             ⟨s.content.drop (i + t.length), s.depth⟩] ++ rest)
    | none => (restoreWalk t rest).map (s :: ·)

/-- Model of `restoreSingleHighlight(highlightData)`: look up the text layer of the
anchor's page (present exactly when that page is the rendered one), search
its text nodes for the anchor's text, wrap the first match and push a new
entry onto the `highlights` array; otherwise leave everything unchanged.
The page-navigation side effect and the 500 ms deferral of the source are
dropped (they do not affect the text layer or the array). -/
def restoreSingleHighlight (h : HighlightData) (st : PageState) : PageState :=
  if st.renderedPage = h.page then
    match restoreWalk h.text st.segs with
    | some segs' => { st with segs := segs', live := st.live ++ [h] }
    | none => st
  else st

/-- Model of `restoreHighlights(savedHighlights)`: run `restoreSingleHighlight` over
the stored list in order (each call wrapped in `try/catch`, so one anchor's
failure never stops the batch; the 1000 ms deferral is dropped). -/
def restoreHighlights (saved : List HighlightData) (st : PageState) : PageState :=
  saved.foldl (fun s a => restoreSingleHighlight a s) st

/-- The state the underline / strikethrough / squiggly restore path acts
on: the rendered page's text layer and the webview `annotations` array. -/
structure AnnotPageState where
  renderedPage : Nat
  segs : List Seg
  liveAnnots : List AnnotationData
deriving DecidableEq

/-- Model of the source's `restoreSingleAnnotation(annotData)`: look up the
text layer of the anchor's page (present exactly when that page is the
rendered one; a null query returns immediately), walk its text nodes with a
`TreeWalker` in document order, and at the first node whose content
contains the anchor text wrap the first occurrence in a styled span and
push the record onto `annotations`, then return.  The styling switch on the
annotation type is visual only; `range.surroundContents` on a range inside
one text node cannot throw, so the per-node `try/catch` never fires. -/
def restoreSingleAnnot (a : AnnotationData) (st : AnnotPageState) :
    AnnotPageState :=
  if st.renderedPage = a.page then
    match restoreWalk a.text st.segs with
    | some segs' => { st with segs := segs', liveAnnots := st.liveAnnots ++ [a] }
    | none => st
  else st

/-- The state the comment restore path acts on: the rendered page's text
layer and the webview `comments` array. -/
structure CommentPageState where
  renderedPage : Nat
  segs : List Seg
  liveComments : List CommentData
deriving DecidableEq

/-- Model of `restoreSingleComment(commentData)`: identical walk to the
annotation restore — null text layer returns immediately, first `indexOf`
hit in document order is wrapped in a comment span (plus a visual-only
icon) and the record is pushed onto `comments`, then return. -/
def restoreSingleComment (c : CommentData) (st : CommentPageState) :
    CommentPageState :=
  if st.renderedPage = c.page then
    match restoreWalk c.text st.segs with
    | some segs' =>
      { st with segs := segs', liveComments := st.liveComments ++ [c] }
    | none => st
  else st

/-- Specification-side location function for claim C3 (modelled from the
spec's words, to be compared with `restoreWalk`): the first node, in
document order, whose text contains the anchor text, paired with the first
occurrence index inside that node. -/
def findLoc : List Seg → List Char → Option (Nat × Nat)
  | [], _ => none
  | s :: rest, t =>
    match firstIdx s.content t with
    | some j => some (0, j)
    | none => (findLoc rest t).map (fun p => (p.1 + 1, p.2))

/-- Specification-side wrapping for claim C3: wrap a marker around exactly
the occurrence of `t` at offset `j` of node `i`, leaving all other nodes
untouched. -/
def wrapFirstOcc (segs : List Seg) (i j : Nat) (t : List Char) : List Seg :=
  match segs, i with
  | [], _ => []
  | s :: rest, 0 =>
    [⟨s.content.take j, s.depth⟩, ⟨t, s.depth + 1⟩,
     ⟨s.content.drop (j + t.length), s.depth⟩] ++ rest
  | s :: rest, i' + 1 => s :: wrapFirstOcc rest i' j t

/-! Section:Messages posted from the webview to the host -/

/-- The message types of the webview→host contract that the claims touch
(`vscode.postMessage({type: ...})`). -/
inductive Msg where
  | highlightAdded (data : HighlightData)
  | annotationAdded (data : AnnotationData)
  | commentAdded (data : CommentData)
  | stickyNoteAdded (data : StickyNoteData)
  | drawingAdded (data : DrawingData)
  | noSelection
  | highlightError
  | annotationError
  | commentError
  | highlightRemovedWithData (index : Int)
  | highlightRemoved (remaining : Nat)
  | highlightsCleared (count : Nat)
  | drawingsCleared (count : Nat)
deriving DecidableEq

/-! Section:The Capture Pipeline (webview side)

`highlightSelection` / `annotateSelection` / `addCommentToSelection` read
`window.getSelection()` and the current page, extract context with
`getTextBefore` / `getTextAfter`, wrap the selection in a marker span and
post an `...Added` message.  A `Selection` value captures everything those
functions observe from the DOM: the raw selected string, the current page
number, the capture instant (`Date.now()`), the parent-node text around the
selection, and which of the DOM operations throw. -/

/-- The DOM environment observed by one capture invocation.  `preText` is
the text from the start of the selection's start-container's parent node up
to the selection start; `postText` the text from the selection end to the
end of the end-container's parent node.  `multiNode` holds when
`range.surroundContents` throws (the selection partially covers a non-text
node); `fallbackFails` when the extract-and-reinsert fallback also throws;
`beforeThrows` / `afterThrows` when the range manipulation inside
`getTextBefore` / `getTextAfter` throws. -/
structure Selection where
  raw : List Char
  page : Nat
  now : Nat
  preText : List Char
  postText : List Char
  multiNode : Bool
  fallbackFails : Bool
  beforeThrows : Bool
  afterThrows : Bool
deriving DecidableEq

/-- The body of `getTextBefore` (before its `catch`): build a range from the
parent start to the selection start, take its text and `slice(-length)`.
Throws exactly when the underlying range operations throw. -/
def getTextBeforeE (r : Selection) (n : Nat) : Except (List Char) (List Char) :=
  if r.beforeThrows then .error ['D', 'O', 'M'] else .ok (jsSliceLast r.preText n)

/-- Model of `getTextBefore(range, length)`: the body guarded by `try/catch`, the
catch returning the empty string. -/
def getTextBefore (r : Selection) (n : Nat) : List Char :=
  match getTextBeforeE r n with
  | .ok s => s
  | .error _ => []

/-- The body of `getTextAfter` (before its `catch`): build a range from the
selection end to the end of the parent node, take its text and
`slice(0, length)`.  (The source's `if (container.textContent)` guard only
skips `setEnd` when the parent text is empty, in which case the collapsed
range also yields the empty string, so it is behaviour-neutral.) -/
def getTextAfterE (r : Selection) (n : Nat) : Except (List Char) (List Char) :=
  if r.afterThrows then .error ['D', 'O', 'M'] else .ok (r.postText.take n)

/-- Model of `getTextAfter(range, length)`: the body guarded by `try/catch`, the
catch returning the empty string. -/
def getTextAfter (r : Selection) (n : Nat) : List Char :=
  match getTextAfterE r n with
  | .ok s => s
  | .error _ => []

/-- Model of `highlightSelection(color)`: reject an empty or whitespace-only
selection with a `noSelection` message; otherwise capture text (trimmed),
page and 20-character contexts, wrap the range and push the record.  When
`surroundContents` throws, fall back to extract-and-reinsert, in which case
the stored `text` is the wrapped span's `textContent` — the RAW selection
string, untrimmed.  When the fallback also throws, post `highlightError`
and store nothing.  Returns the new `highlights` array and the posted
message. -/
def highlightSelection (color : List Char) (sel : Selection)
    (hs : List HighlightData) : List HighlightData × Msg :=
  if trimChars sel.raw = [] then (hs, .noSelection)
  else
    let text := trimChars sel.raw
    let tb := getTextBefore sel 20
    let ta := getTextAfter sel 20
    if !sel.multiNode then
      let d : HighlightData := ⟨color, text, sel.page, sel.now, tb, ta⟩
      (hs ++ [d], .highlightAdded d)
    else if !sel.fallbackFails then
      let d : HighlightData := ⟨color, sel.raw, sel.page, sel.now, tb, ta⟩
      (hs ++ [d], .highlightAdded d)
    else (hs, .highlightError)

/-- Model of `annotateSelection(type, color)`: the underline / strikethrough /
squiggly counterpart of `highlightSelection`, with the same
reject / wrap / fallback structure (styling differences are visual only). -/
def annotateSelection (atype color : List Char) (sel : Selection)
    (as' : List AnnotationData) : List AnnotationData × Msg :=
  if trimChars sel.raw = [] then (as', .noSelection)
  else
    let text := trimChars sel.raw
    let tb := getTextBefore sel 20
    let ta := getTextAfter sel 20
    if !sel.multiNode then
      let d : AnnotationData := ⟨atype, color, text, sel.page, sel.now, tb, ta⟩
      (as' ++ [d], .annotationAdded d)
    else if !sel.fallbackFails then
      let d : AnnotationData := ⟨atype, color, sel.raw, sel.page, sel.now, tb, ta⟩
      (as' ++ [d], .annotationAdded d)
    else (as', .annotationError)

/-- Model of `addCommentToSelection(commentText, color)`: reject an empty or
whitespace-only selection; otherwise wrap the range (no fallback path: a
`surroundContents` failure posts `commentError` and stores nothing) and
push a comment record with author `"User"`. -/
def addCommentToSelection (commentText color : List Char) (sel : Selection)
    (cs : List CommentData) : List CommentData × Msg :=
  if trimChars sel.raw = [] then (cs, .noSelection)
  else
    let text := trimChars sel.raw
    let tb := getTextBefore sel 20
    let ta := getTextAfter sel 20
    if !sel.multiNode then
      let d : CommentData :=
        ⟨text, commentText, color, sel.page, sel.now, tb, ta, ['U', 's', 'e', 'r']⟩
      (cs ++ [d], .commentAdded d)
    else (cs, .commentError)

/-! Section:Summary / navigation and delete operations (webview side) -/

/-- One entry of the `highlightsSummary` message: `{index, color, text}`
with a 1-based index and the text truncated by
`substring(0, 50) + (length > 50 ? '...' : '')`. -/
structure SummaryEntry where
  index : Nat
  color : List Char
  text : List Char
deriving DecidableEq

/-- The index-aware `highlights.map((h, i) => ...)` of
`getHighlightsSummary`, unrolled with an explicit counter `i`. -/
def summaryFrom (i : Nat) : List HighlightData → List SummaryEntry
  | [] => []
  | h :: rest =>
    ⟨i + 1, h.color,
     h.text.take 50 ++ (if 50 < h.text.length then ['.', '.', '.'] else [])⟩
      :: summaryFrom (i + 1) rest

/-- Model of `getHighlightsSummary()`: map the `highlights` array to its summary
entries `{index: i + 1, color, text: substring(0,50) + ellipsis-if-longer}`. -/
def getHighlightsSummary (hs : List HighlightData) : List SummaryEntry :=
  summaryFrom 0 hs

/-- An entry of the webview `highlights` array seen by the delete / clear
operations: the record plus whether its marker span is still attached to
the DOM (`span.parentNode` non-null). -/
structure LiveHighlight where
  data : HighlightData
  attached : Bool
deriving DecidableEq

/-- Model of `clearAllHighlights()`: unwrap every still-attached marker span
(counting them), empty the `highlights` array and post `highlightsCleared`
with the count. -/
def clearAllHighlights (hs : List LiveHighlight) : List LiveHighlight × Msg :=
  ([], .highlightsCleared (hs.countP (·.attached)))

/-- Model of `removeHighlight(index)`: out-of-bounds indices post `highlightError`
and change nothing; otherwise unwrap the marker, splice the entry out and
post `highlightRemovedWithData` (for storage sync) then
`highlightRemoved`.  Returns the new array and the posted messages. -/
def removeHighlight (index : Int) (hs : List LiveHighlight) :
    List LiveHighlight × List Msg :=
  if index < 0 ∨ (hs.length : Int) ≤ index then (hs, [.highlightError])
  else
    let hs' := hs.eraseIdx index.toNat
    (hs', [.highlightRemovedWithData index, .highlightRemoved hs'.length])

/-- Model of `clearDrawings()`: drop the CURRENT page's drawings from the in-memory
array, clear the overlay canvas, and post `drawingsCleared` with the number
dropped.  Drawings of other pages stay. -/
def clearDrawings (currentPage : Nat) (ds : List DrawingData) :
    List DrawingData × Msg :=
  (ds.filter (fun d => d.page ≠ currentPage),
   .drawingsCleared (ds.countP (fun d => d.page = currentPage)))

/-! Section:Host side (`PdfPreview` in `src/src/pdfPreview.ts`)

The host keeps per-kind in-memory arrays (`_savedHighlights`,
`_savedAnnotations`, `_savedComments`, `_savedStickyNotes`,
`_savedDrawings`) and persists them into `context.globalState`, a key-value
store keyed by strings derived from the document URI.  Note the highlight
key asymmetry of the source: `loadHighlights` / `saveHighlights` use
`pdf-highlights-<uri>` while `saveHighlightsStorage` (invoked from
`saveAllAnnotations`) writes `pdf.highlights.<uri>`. -/

/-- A value stored under one key of `globalState`. -/
inductive PersistVal where
  | hl (l : List HighlightData)
  | ann (l : List AnnotationData)
  | cm (l : List CommentData)
  | sn (l : List StickyNoteData)
  | dr (l : List DrawingData)
deriving DecidableEq

/-- The key-value store `context.globalState`, as an association list. -/
def Store := List (String × PersistVal)

instance : DecidableEq Store := by
  unfold Store
  infer_instance

/-- Model of `globalState.get(key)`. -/
def kvGet (kv : Store) (k : String) : Option PersistVal :=
  match kv with
  | [] => none
  | (k', v) :: rest => if k' = k then some v else kvGet rest k

/-- Model of `globalState.update(key, value)`: replace the binding for `k`, or add
it. -/
def kvUpdate (kv : Store) (k : String) (v : PersistVal) : Store :=
  match kv with
  | [] => [(k, v)]
  | (k', v') :: rest =>
    if k' = k then (k, v) :: rest else (k', v') :: kvUpdate rest k v

/-- Model of `getHighlightsKey()`: the key `loadHighlights` / `saveHighlights` use. -/
def highlightsKey (uri : String) : String := "pdf-highlights-" ++ uri

/-- The key `saveHighlightsStorage` writes (NOT the one `loadHighlights`
reads). -/
def highlightsKey2 (uri : String) : String := "pdf.highlights." ++ uri

/-- The key of `loadAnnotations` / `saveAnnotations`. -/
def annotationsKey (uri : String) : String := "pdf.annotations." ++ uri

/-- The key of `loadComments` / `saveComments`. -/
def commentsKey (uri : String) : String := "pdf.comments." ++ uri

/-- The key of `loadStickyNotes` / `saveStickyNotes`. -/
def stickyNotesKey (uri : String) : String := "pdf.stickyNotes." ++ uri

/-- The key of `loadDrawings` / `saveDrawings`. -/
def drawingsKey (uri : String) : String := "pdf.drawings." ++ uri

/-- The slice of `PdfPreview` state the claims concern: the document URI,
the five in-memory anchor arrays, and the key-value store. -/
structure HostState where
  uri : String
  savedHighlights : List HighlightData
  savedAnnotations : List AnnotationData
  savedComments : List CommentData
  savedStickyNotes : List StickyNoteData
  savedDrawings : List DrawingData
  kv : Store
deriving DecidableEq

/-- Model of `loadHighlights()`: `globalState.get(getHighlightsKey()) || []`. -/
def loadHighlights (kv : Store) (uri : String) : List HighlightData :=
  match kvGet kv (highlightsKey uri) with
  | some (.hl l) => l
  | _ => []

/-- The `PdfPreview` constructor, restricted to annotation state: the five
arrays start from their field initialisers `[]`, and of the annotation
loaders ONLY `loadHighlights()` is invoked (`loadAllAnnotations`, which
would call `loadAnnotations` / `loadComments` / `loadStickyNotes` /
`loadDrawings`, is defined but never called anywhere). -/
def constructorInit (uri : String) (kv : Store) : HostState :=
  ⟨uri, loadHighlights kv uri, [], [], [], [], kv⟩

/-- Model of `saveHighlights()`: persist `_savedHighlights` under
`pdf-highlights-<uri>`. -/
def saveHighlights (st : HostState) : HostState :=
  { st with kv := kvUpdate st.kv (highlightsKey st.uri) (.hl st.savedHighlights) }

/-- Model of `saveAllAnnotations()`: `saveHighlightsStorage`, `saveAnnotations`,
`saveComments`, `saveStickyNotes`, `saveDrawings`, each writing its own
key. -/
def saveAllAnnotations (st : HostState) : HostState :=
  let kv1 := kvUpdate st.kv (highlightsKey2 st.uri) (.hl st.savedHighlights)
  let kv2 := kvUpdate kv1 (annotationsKey st.uri) (.ann st.savedAnnotations)
  let kv3 := kvUpdate kv2 (commentsKey st.uri) (.cm st.savedComments)
  let kv4 := kvUpdate kv3 (stickyNotesKey st.uri) (.sn st.savedStickyNotes)
  let kv5 := kvUpdate kv4 (drawingsKey st.uri) (.dr st.savedDrawings)
  { st with kv := kv5 }

/-- Model of `addHighlightToStorage(highlight)`: push and `saveHighlights()`. -/
def addHighlightToStorage (d : HighlightData) (st : HostState) : HostState :=
  saveHighlights { st with savedHighlights := st.savedHighlights ++ [d] }

/-- Model of `removeHighlightFromStorage(index)`: splice out the entry and persist
when the index is in bounds; otherwise do nothing at all. -/
def removeHighlightFromStorage (index : Int) (st : HostState) : HostState :=
  if 0 ≤ index ∧ index < (st.savedHighlights.length : Int) then
    saveHighlights
      { st with savedHighlights := st.savedHighlights.eraseIdx index.toNat }
  else st

/-- Model of `clearHighlightsStorage()`: empty `_savedHighlights` and persist. -/
def clearHighlightsStorage (st : HostState) : HostState :=
  saveHighlights { st with savedHighlights := [] }

/-- Model of `addAnnotationToStorage(annotationData)`: push and
`saveAllAnnotations()`. -/
def addAnnotationToStorage (d : AnnotationData) (st : HostState) : HostState :=
  saveAllAnnotations { st with savedAnnotations := st.savedAnnotations ++ [d] }

/-- Model of `addCommentToStorage(commentData)`: push and `saveAllAnnotations()`. -/
def addCommentToStorage (d : CommentData) (st : HostState) : HostState :=
  saveAllAnnotations { st with savedComments := st.savedComments ++ [d] }

/-- Model of `addStickyNoteToStorage(noteData)`: push and `saveAllAnnotations()`. -/
def addStickyNoteToStorage (d : StickyNoteData) (st : HostState) : HostState :=
  saveAllAnnotations { st with savedStickyNotes := st.savedStickyNotes ++ [d] }

/-- Model of `addDrawingToStorage(drawingData)`: push and `saveAllAnnotations()`. -/
def addDrawingToStorage (d : DrawingData) (st : HostState) : HostState :=
  saveAllAnnotations { st with savedDrawings := st.savedDrawings ++ [d] }

/-- The `onDidReceiveMessage` dispatch of the `PdfPreview` constructor,
restricted to the cases that touch annotation state.  In particular the
`drawingsCleared` case only shows an information message: neither the
in-memory `_savedDrawings` nor the key-value store is touched. -/
def hostStep (m : Msg) (st : HostState) : HostState :=
  match m with
  | .highlightAdded d => addHighlightToStorage d st
  | .annotationAdded d => addAnnotationToStorage d st
  | .commentAdded d => addCommentToStorage d st
  | .stickyNoteAdded d => addStickyNoteToStorage d st
  | .drawingAdded d => addDrawingToStorage d st
  | .highlightRemovedWithData i => removeHighlightFromStorage i st
  | .highlightsCleared _ => clearHighlightsStorage st
  | .drawingsCleared _ => st
  | .highlightRemoved _ => st
  | .noSelection => st
  | .highlightError => st
  | .annotationError => st
  | .commentError => st

/-! Section:Shared helper lemmas -/

/-- The restore walk realises the specification-side location function: it
rewrites the text layer exactly by wrapping the first occurrence in the
first containing node, and fails exactly when no node contains the text. -/
theorem restoreWalk_eq_findLoc (t : List Char) (segs : List Seg) :
    restoreWalk t segs
      = (findLoc segs t).map (fun p => wrapFirstOcc segs p.1 p.2 t) := by
  induction segs with
  | nil => rfl
  | cons s rest ih =>
    unfold restoreWalk findLoc
    cases hfi : firstIdx s.content t with
    | some j => simp [wrapFirstOcc]
    | none =>
      rw [ih]
      cases hfl : findLoc rest t with
      | none => rfl
      | some p => simp [wrapFirstOcc]

/-- Looking a key up right after updating it yields the new value. -/
theorem kvGet_kvUpdate_self (kv : Store) (k : String) (v : PersistVal) :
    kvGet (kvUpdate kv k v) k = some v := by
  induction kv with
  | nil => simp [kvUpdate, kvGet]
  | cons p rest ih =>
    obtain ⟨k', v'⟩ := p
    unfold kvUpdate
    by_cases h : k' = k
    · simp [h, kvGet]
    · simp [h, kvGet, ih]

/-- Updating one key leaves the value stored under a different key alone. -/
theorem kvGet_kvUpdate_other (kv : Store) (k k' : String) (v : PersistVal)
    (h : k' ≠ k) : kvGet (kvUpdate kv k v) k' = kvGet kv k' := by
  induction kv with
  | nil => simp [kvUpdate, kvGet, Ne.symm h]
  | cons p rest ih =>
    obtain ⟨k₀, v₀⟩ := p
    unfold kvUpdate
    by_cases h₀ : k₀ = k
    · subst h₀
      simp [kvGet, Ne.symm h]
    · simp [h₀, kvGet, ih]

/-- The helper `getTextBefore` always returns a tail segment of the text
preceding the selection inside the parent node (the catch branch returns
the empty segment). -/
theorem getTextBefore_is_drop (r : Selection) (n : Nat) :
    ∃ k, getTextBefore r n = r.preText.drop k := by
  unfold getTextBefore getTextBeforeE
  cases hb : r.beforeThrows with
  | true => exact ⟨r.preText.length, by simp⟩
  | false =>
    unfold jsSliceLast
    by_cases hn : n = 0
    · exact ⟨0, by simp [hn]⟩
    · exact ⟨r.preText.length - n, by simp [hn]⟩

/-- For a positive requested length, `getTextBefore` returns at most that
many characters. -/
theorem getTextBefore_length_le (r : Selection) (n : Nat) (hn : 1 ≤ n) :
    (getTextBefore r n).length ≤ n := by
  unfold getTextBefore getTextBeforeE
  cases hb : r.beforeThrows with
  | true => simp
  | false =>
    have hn' : n ≠ 0 := by omega
    simp only [Bool.false_eq_true, if_false, jsSliceLast, hn', List.length_drop]
    omega

/-- The helper `getTextAfter` always returns a front segment of the text
following the selection inside the parent node. -/
theorem getTextAfter_is_take (r : Selection) (n : Nat) :
    ∃ m, getTextAfter r n = r.postText.take m := by
  unfold getTextAfter getTextAfterE
  cases ha : r.afterThrows with
  | true => exact ⟨0, by simp⟩
  | false => exact ⟨n, by simp⟩

/-- The helper `getTextAfter` returns at most the requested number of
characters. -/
theorem getTextAfter_length_le (r : Selection) (n : Nat) :
    (getTextAfter r n).length ≤ n := by
  unfold getTextAfter getTextAfterE
  cases ha : r.afterThrows with
  | true => simp
  | false => simp [List.length_take]

/-- The summary entries track positions: appending one anchor appends one
summary entry carrying the next 1-based index and the truncated text. -/
theorem summaryFrom_append (i : Nat) (l : List HighlightData)
    (h : HighlightData) :
    summaryFrom i (l ++ [h])
      = summaryFrom i l ++
        [⟨i + l.length + 1, h.color,
          h.text.take 50 ++ (if 50 < h.text.length then ['.', '.', '.'] else [])⟩] := by
  induction l generalizing i with
  | nil => simp [summaryFrom]
  | cons x rest ih =>
    simp [List.cons_append, summaryFrom, ih, SummaryEntry.mk.injEq]
    omega

/-! Section:Claim C1 -/

/-- A stored highlight anchor of the text `wo` on page 1. -/
def c1Anchor : HighlightData := ⟨['y'], ['w', 'o'], 1, 0, [], []⟩

/-- A rendered page 1 whose text layer is the single text node `awob`, with
no live markers yet. -/
def c1Page : PageState := ⟨1, [⟨['a', 'w', 'o', 'b'], 0⟩], []⟩

/-- C1: the Re-anchoring Engine is NOT idempotent.  There is no
"already restored for this load" guard anywhere in the source, and a marker
span created by a restore pass stays inside the page's text layer, so the
tree walk of a second invocation for the same stored list and the same
rendered page finds the anchor text again (inside the first pass's marker)
and wraps and records a second marker: one stored anchor yields one live
marker after one invocation but two after two. -/
theorem c1_restore_twice_duplicates :
    (restoreHighlights [c1Anchor] c1Page).live.length = 1
    ∧ (restoreHighlights [c1Anchor]
        (restoreHighlights [c1Anchor] c1Page)).live.length = 2 := by
  constructor
  · rfl
  · rfl

/-! Section:Claim C2 -/

/-- A comment anchor captured during the first session. -/
def c2Comment : CommentData :=
  ⟨['h', 'i'], ['n', 'o', 't', 'e'], ['y'], 1, 0, [], [], ['U', 's', 'e', 'r']⟩

/-- The host state at the end of session one: a fresh `PdfPreview` for
`doc.pdf` over an empty key-value store, after the webview reported one
added comment (which the host appended and persisted via
`saveAllAnnotations`). -/
def c2SessionOne : HostState :=
  hostStep (.commentAdded c2Comment) (constructorInit "doc.pdf" [])

/-- C2: a persisted anchor of a non-highlight kind is NOT reloaded on the
next open of the same document identity.  Session one persists the comment
under `pdf.comments.doc.pdf`, but the `PdfPreview` constructor only invokes
`loadHighlights()`; `loadAllAnnotations` (and with it `loadComments`) is
defined yet never called, so the next session's in-memory comment list
starts empty even though the store still holds the comment. -/
theorem c2_persisted_comment_not_reloaded :
    kvGet c2SessionOne.kv (commentsKey "doc.pdf") = some (.cm [c2Comment])
    ∧ c2SessionOne.savedComments = [c2Comment]
    ∧ (constructorInit "doc.pdf" c2SessionOne.kv).savedComments = [] := by
  refine ⟨?_, rfl, rfl⟩
  rfl

/-! Section:Claim C9 -/

/-- C9: appending an anchor through the host `append` operation
(`addHighlightToStorage`) makes the summary list's LAST entry carry exactly
that anchor's text truncated to 50 characters, with the `...` ellipsis
marker appended precisely when the text is longer than 50 characters; the
entry's index field is the new 1-based last position. -/
theorem c9_append_summary_roundtrip (st : HostState) (d : HighlightData) :
    (getHighlightsSummary (addHighlightToStorage d st).savedHighlights).getLast?
      = some ⟨st.savedHighlights.length + 1, d.color,
              d.text.take 50
                ++ (if 50 < d.text.length then ['.', '.', '.'] else [])⟩
    ∧ (getHighlightsSummary (addHighlightToStorage d st).savedHighlights).length
      = st.savedHighlights.length + 1 := by
  have harr : (addHighlightToStorage d st).savedHighlights
      = st.savedHighlights ++ [d] := rfl
  rw [harr]
  unfold getHighlightsSummary
  rw [summaryFrom_append]
  constructor
  · simp
  · have hlen : ∀ (i : Nat) (l : List HighlightData),
        (summaryFrom i l).length = l.length := by
      intro i l
      induction l generalizing i with
      | nil => rfl
      | cons x rest ih => simp [summaryFrom, ih]
    simp [hlen]

/-! Section:Claim C3 -/

/-- C3: for every stored text-bound anchor whose page is the rendered one —
a highlight, an underline / strikethrough / squiggly annotation, or a
comment — restoration walks the text-layer nodes in document order and
wraps a marker around exactly the first occurrence of `anchor.text` in the
first node containing it, then stops (all later nodes untouched, exactly
one marker recorded); and the resulting text layer is entirely independent
of the anchor's `textBefore` / `textAfter` context fields — only `text` and
`page` matter.  When no node contains the text, nothing changes at all. -/
theorem c3_restore_first_match_wins
    (h : HighlightData) (an : AnnotationData) (cm : CommentData)
    (sth : PageState) (sta : AnnotPageState) (stc : CommentPageState)
    (hp : sth.renderedPage = h.page) (hpa : sta.renderedPage = an.page)
    (hpc : stc.renderedPage = cm.page) (b a : List Char) :
    (((restoreSingleHighlight { h with textBefore := b, textAfter := a } sth).segs
        = (restoreSingleHighlight h sth).segs
      ∧ (restoreSingleHighlight { h with textBefore := b, textAfter := a } sth).live.length
        = (restoreSingleHighlight h sth).live.length)
    ∧ (match findLoc sth.segs h.text with
       | some p =>
         (restoreSingleHighlight h sth).segs = wrapFirstOcc sth.segs p.1 p.2 h.text
         ∧ (restoreSingleHighlight h sth).live = sth.live ++ [h]
       | none => restoreSingleHighlight h sth = sth))
    ∧ (((restoreSingleAnnot { an with textBefore := b, textAfter := a } sta).segs
        = (restoreSingleAnnot an sta).segs
      ∧ (restoreSingleAnnot { an with textBefore := b, textAfter := a } sta).liveAnnots.length
        = (restoreSingleAnnot an sta).liveAnnots.length)
    ∧ (match findLoc sta.segs an.text with
       | some p =>
         (restoreSingleAnnot an sta).segs = wrapFirstOcc sta.segs p.1 p.2 an.text
         ∧ (restoreSingleAnnot an sta).liveAnnots = sta.liveAnnots ++ [an]
       | none => restoreSingleAnnot an sta = sta))
    ∧ (((restoreSingleComment { cm with textBefore := b, textAfter := a } stc).segs
        = (restoreSingleComment cm stc).segs
      ∧ (restoreSingleComment { cm with textBefore := b, textAfter := a } stc).liveComments.length
        = (restoreSingleComment cm stc).liveComments.length)
    ∧ (match findLoc stc.segs cm.text with
       | some p =>
         (restoreSingleComment cm stc).segs = wrapFirstOcc stc.segs p.1 p.2 cm.text
         ∧ (restoreSingleComment cm stc).liveComments = stc.liveComments ++ [cm]
       | none => restoreSingleComment cm stc = stc)) := by
  refine ⟨?_, ?_, ?_⟩
  · unfold restoreSingleHighlight
    rw [restoreWalk_eq_findLoc]
    cases hfl : findLoc sth.segs h.text with
    | some p => simp [hp]
    | none => simp [hp]
  · unfold restoreSingleAnnot
    rw [restoreWalk_eq_findLoc]
    cases hfl : findLoc sta.segs an.text with
    | some p => simp [hpa]
    | none => simp [hpa]
  · unfold restoreSingleComment
    rw [restoreWalk_eq_findLoc]
    cases hfl : findLoc stc.segs cm.text with
    | some p => simp [hpc]
    | none => simp [hpc]

/-- The highlight anchor of the C3 witness: text `wo` on page 1 with empty
context. -/
def c3Anchor : HighlightData := ⟨['y'], ['w', 'o'], 1, 0, [], []⟩

/-- The underline annotation anchor of the C3 witness, same text and
page. -/
def c3Annot : AnnotationData := ⟨['u'], ['y'], ['w', 'o'], 1, 0, [], []⟩

/-- The comment anchor of the C3 witness, same text and page. -/
def c3Cm : CommentData :=
  ⟨['w', 'o'], ['n'], ['y'], 1, 0, [], [], ['U', 's', 'e', 'r']⟩

/-- The rendered page of the C3 witness: page 1 with two text nodes `xy`
and `awob`; the anchor text occurs only in the second node, at offset 1. -/
def c3Page : PageState := ⟨1, [⟨['x', 'y'], 0⟩, ⟨['a', 'w', 'o', 'b'], 0⟩], []⟩

/-- The same rendered page as seen by the annotation restore path. -/
def c3AnnotPage : AnnotPageState :=
  ⟨1, [⟨['x', 'y'], 0⟩, ⟨['a', 'w', 'o', 'b'], 0⟩], []⟩

/-- The same rendered page as seen by the comment restore path. -/
def c3CmPage : CommentPageState :=
  ⟨1, [⟨['x', 'y'], 0⟩, ⟨['a', 'w', 'o', 'b'], 0⟩], []⟩

/-- Witness for C3 at concrete anchors and pages, one per text-bound kind:
the context fields do not move any marker, each wrap happens at node 1
offset 1 (the first occurrence), and exactly one marker is recorded per
kind. -/
theorem c3_restore_first_match_wins_witness :
    ((restoreSingleHighlight { c3Anchor with textBefore := ['x'], textAfter := ['z'] } c3Page).segs
        = (restoreSingleHighlight c3Anchor c3Page).segs
      ∧ (restoreSingleHighlight c3Anchor c3Page).segs
        = wrapFirstOcc c3Page.segs 1 1 c3Anchor.text
      ∧ (restoreSingleHighlight c3Anchor c3Page).live = c3Page.live ++ [c3Anchor])
    ∧ ((restoreSingleAnnot { c3Annot with textBefore := ['x'], textAfter := ['z'] } c3AnnotPage).segs
        = (restoreSingleAnnot c3Annot c3AnnotPage).segs
      ∧ (restoreSingleAnnot c3Annot c3AnnotPage).segs
        = wrapFirstOcc c3AnnotPage.segs 1 1 c3Annot.text
      ∧ (restoreSingleAnnot c3Annot c3AnnotPage).liveAnnots
        = c3AnnotPage.liveAnnots ++ [c3Annot])
    ∧ ((restoreSingleComment { c3Cm with textBefore := ['x'], textAfter := ['z'] } c3CmPage).segs
        = (restoreSingleComment c3Cm c3CmPage).segs
      ∧ (restoreSingleComment c3Cm c3CmPage).segs
        = wrapFirstOcc c3CmPage.segs 1 1 c3Cm.text
      ∧ (restoreSingleComment c3Cm c3CmPage).liveComments
        = c3CmPage.liveComments ++ [c3Cm]) := by
  obtain ⟨h1, h2, h3⟩ := c3_restore_first_match_wins c3Anchor c3Annot c3Cm
    c3Page c3AnnotPage c3CmPage rfl rfl rfl ['x'] ['z']
  exact ⟨⟨h1.1.1, h1.2.1, h1.2.2⟩, ⟨h2.1.1, h2.2.1, h2.2.2⟩,
         ⟨h3.1.1, h3.2.1, h3.2.2⟩⟩

/-! Section:Claim C4 -/

/-- C4: an anchor that misses — its text occurs in no node of the rendered
text layer, or its page is not the rendered page (in particular a page
number beyond the current document's page count, for which no text layer
exists) — yields zero markers and leaves the page state untouched, and the
remaining anchors of the batch are processed exactly as if the missing one
were absent. -/
theorem c4_restore_miss_graceful (a : HighlightData)
    (rest : List HighlightData) (st : PageState)
    (hmiss : st.renderedPage ≠ a.page ∨ findLoc st.segs a.text = none) :
    restoreSingleHighlight a st = st
    ∧ restoreHighlights (a :: rest) st = restoreHighlights rest st := by
  have h1 : restoreSingleHighlight a st = st := by
    unfold restoreSingleHighlight
    cases hmiss with
    | inl hpage => simp [hpage]
    | inr hfind => rw [restoreWalk_eq_findLoc, hfind]; simp
  refine ⟨h1, ?_⟩
  show List.foldl _ _ _ = _
  rw [List.foldl_cons, h1]
  rfl

/-- Witness for C4: on a rendered page 1 with text layer `ab`, an anchor
with absent text `z` (first application) and an anchor for out-of-range
page 99 (second application) are both skipped, while the remaining anchor
of the batch is still restored. -/
theorem c4_restore_miss_graceful_witness :
    (restoreSingleHighlight ⟨['y'], ['z'], 1, 0, [], []⟩ ⟨1, [⟨['a', 'b'], 0⟩], []⟩
        = ⟨1, [⟨['a', 'b'], 0⟩], []⟩
      ∧ restoreHighlights [⟨['y'], ['z'], 1, 0, [], []⟩, ⟨['y'], ['a'], 1, 0, [], []⟩]
          ⟨1, [⟨['a', 'b'], 0⟩], []⟩
        = restoreHighlights [⟨['y'], ['a'], 1, 0, [], []⟩] ⟨1, [⟨['a', 'b'], 0⟩], []⟩)
    ∧ (restoreSingleHighlight ⟨['y'], ['a'], 99, 0, [], []⟩ ⟨1, [⟨['a', 'b'], 0⟩], []⟩
        = ⟨1, [⟨['a', 'b'], 0⟩], []⟩
      ∧ restoreHighlights [⟨['y'], ['a'], 99, 0, [], []⟩] ⟨1, [⟨['a', 'b'], 0⟩], []⟩
        = restoreHighlights [] ⟨1, [⟨['a', 'b'], 0⟩], []⟩) := by
  constructor
  · exact c4_restore_miss_graceful _ _ _ (Or.inr (by decide))
  · exact c4_restore_miss_graceful _ _ _ (Or.inl (by decide))

/-! Section:Claim C5 -/

/-- Two committed drawings on different pages. -/
def c5Drawing1 : DrawingData :=
  { dtype := ['r'], color := ['r'], strokeWidth := 2, page := 1, timestamp := 0 }

/-- The second drawing, on page 2. -/
def c5Drawing2 : DrawingData :=
  { dtype := ['c'], color := ['b'], strokeWidth := 2, page := 2, timestamp := 0 }

/-- A host whose in-memory and persisted drawing store holds both
drawings. -/
def c5Host : HostState :=
  ⟨"doc.pdf", [], [], [], [], [c5Drawing1, c5Drawing2],
   [(drawingsKey "doc.pdf", .dr [c5Drawing1, c5Drawing2])]⟩

/-- Counterexample to C5 as stated, at the drawing kind: with the current
page 1 and drawings on pages 1 and 2, `clearDrawings` leaves the page-2
drawing in the in-memory list (it does not empty the whole (document, kind)
list), and the host's `drawingsCleared` handler changes nothing — neither
the in-memory host list nor the persisted store reflects the removal. -/
theorem c5_clearDrawings_not_global :
    (clearDrawings 1 [c5Drawing1, c5Drawing2]).1 = [c5Drawing2]
    ∧ [c5Drawing2] ≠ ([] : List DrawingData)
    ∧ hostStep (.drawingsCleared 1) c5Host = c5Host
    ∧ kvGet (hostStep (.drawingsCleared 1) c5Host).kv (drawingsKey "doc.pdf")
        = some (.dr [c5Drawing1, c5Drawing2]) := by
  refine ⟨rfl, by decide, rfl, rfl⟩

/-- C5 (amended): for the HIGHLIGHT kind, clear-all empties the entire
(document, kind) list regardless of page, reports the number of
still-attached markers it unwrapped, and the host's `highlightsCleared`
handler empties the in-memory store and persists the empty list in the same
step, so that a subsequent summary listing or restore sees nothing.  For
the DRAWING kind, however, `clearDrawings` removes only the CURRENT page's
entries (reporting that per-page count), and the host's `drawingsCleared`
handler performs no store update at all. -/
theorem c5_clearAll_per_kind (hs : List LiveHighlight) (cnt m cur : Nat)
    (ds : List DrawingData) (st : HostState) (pst : PageState) :
    (clearAllHighlights hs).1 = []
    ∧ (clearAllHighlights hs).2 = .highlightsCleared (hs.countP (·.attached))
    ∧ (hostStep (.highlightsCleared cnt) st).savedHighlights = []
    ∧ kvGet (hostStep (.highlightsCleared cnt) st).kv (highlightsKey st.uri)
        = some (.hl [])
    ∧ getHighlightsSummary (hostStep (.highlightsCleared cnt) st).savedHighlights
        = []
    ∧ restoreHighlights (hostStep (.highlightsCleared cnt) st).savedHighlights pst
        = pst
    ∧ (clearDrawings cur ds).1 = ds.filter (fun d => d.page ≠ cur)
    ∧ (clearDrawings cur ds).2 = .drawingsCleared (ds.countP (fun d => d.page = cur))
    ∧ hostStep (.drawingsCleared m) st = st := by
  refine ⟨rfl, rfl, rfl, ?_, rfl, rfl, rfl, rfl, rfl⟩
  exact kvGet_kvUpdate_self st.kv (highlightsKey st.uri) (.hl [])

/-! Section:Claim C6 -/

/-- C6: `removeAt` with an in-range index removes exactly the indexed
element (so all later elements shift down by one) on both the webview array
and the host store, and the host persists the shortened list under the
highlight key in the same step; an out-of-bounds index is a silent no-op on
both sides — the webview merely posts `highlightError`, which the host
ignores, and no store key is written. -/
theorem c6_removeAt_splices_and_persists (i : Int) (l : List LiveHighlight)
    (st : HostState) :
    (0 ≤ i ∧ i < (l.length : Int) →
      (removeHighlight i l).1 = l.eraseIdx i.toNat)
    ∧ (i < 0 ∨ (l.length : Int) ≤ i →
      removeHighlight i l = (l, [.highlightError]))
    ∧ (0 ≤ i ∧ i < ((st.savedHighlights.length : Int)) →
      (removeHighlightFromStorage i st).savedHighlights
          = st.savedHighlights.eraseIdx i.toNat
      ∧ kvGet (removeHighlightFromStorage i st).kv (highlightsKey st.uri)
          = some (.hl (st.savedHighlights.eraseIdx i.toNat)))
    ∧ (¬(0 ≤ i ∧ i < (st.savedHighlights.length : Int)) →
      removeHighlightFromStorage i st = st)
    ∧ hostStep .highlightError st = st := by
  refine ⟨?_, ?_, ?_, ?_, rfl⟩
  · intro hin
    unfold removeHighlight
    rw [if_neg (by omega)]
  · intro hout
    unfold removeHighlight
    rw [if_pos hout]
  · intro hin
    unfold removeHighlightFromStorage
    rw [if_pos hin]
    exact ⟨rfl, kvGet_kvUpdate_self _ _ _⟩
  · intro hout
    unfold removeHighlightFromStorage
    rw [if_neg hout]

/-- The three anchors of the C6 index-stability scenario. -/
def c6A0 : LiveHighlight := ⟨⟨['y'], ['A', '0'], 1, 0, [], []⟩, true⟩

/-- Scenario anchor A1. -/
def c6A1 : LiveHighlight := ⟨⟨['y'], ['A', '1'], 1, 0, [], []⟩, true⟩

/-- Scenario anchor A2. -/
def c6A2 : LiveHighlight := ⟨⟨['y'], ['A', '2'], 1, 0, [], []⟩, true⟩

/-- Witness for C6: on `[A0, A1, A2]`, `removeAt 1` yields `[A0, A2]`; a
subsequent `removeAt 1` removes what was A2 (leaving `[A0]`), not A0; and
`removeAt 5` is rejected without any change. -/
theorem c6_removeAt_index_stability_witness :
    (removeHighlight 1 [c6A0, c6A1, c6A2]).1 = [c6A0, c6A2]
    ∧ (removeHighlight 1 [c6A0, c6A2]).1 = [c6A0]
    ∧ removeHighlight 5 [c6A0, c6A1, c6A2]
        = ([c6A0, c6A1, c6A2], [.highlightError]) := by
  refine ⟨?_, ?_, ?_⟩
  · exact ((c6_removeAt_splices_and_persists 1 [c6A0, c6A1, c6A2]
      ⟨"u", [], [], [], [], [], []⟩).1 (by constructor <;> decide)).trans rfl
  · exact ((c6_removeAt_splices_and_persists 1 [c6A0, c6A2]
      ⟨"u", [], [], [], [], [], []⟩).1 (by constructor <;> decide)).trans rfl
  · exact (c6_removeAt_splices_and_persists 5 [c6A0, c6A1, c6A2]
      ⟨"u", [], [], [], [], [], []⟩).2.1 (by right; decide)

/-! Section:Claim C7 -/

/-- C7: every text-bound capture operation — highlight, underline /
strikethrough / squiggly, comment — rejects an empty or whitespace-only
selection by posting `noSelection` and changing nothing: the respective
in-memory list is returned untouched, no `...Added` message is produced,
and the host's `noSelection` handler (a notification) leaves host state and
persisted store unchanged. -/
theorem c7_noSelection_rejects (color atype ctext : List Char)
    (sel : Selection) (hs : List HighlightData) (as' : List AnnotationData)
    (cs : List CommentData) (host : HostState)
    (hempty : trimChars sel.raw = []) :
    highlightSelection color sel hs = (hs, .noSelection)
    ∧ annotateSelection atype color sel as' = (as', .noSelection)
    ∧ addCommentToSelection ctext color sel cs = (cs, .noSelection)
    ∧ hostStep .noSelection host = host := by
  refine ⟨?_, ?_, ?_, rfl⟩
  · simp [highlightSelection, hempty]
  · simp [annotateSelection, hempty]
  · simp [addCommentToSelection, hempty]

/-- A whitespace-only selection on page 1. -/
def c7Sel : Selection := ⟨[' ', '\t'], 1, 0, ['a'], ['b'], false, false, false, false⟩

/-- An arbitrary host state for the C7 witness. -/
def c7Host : HostState := ⟨"doc.pdf", [], [], [], [], [], []⟩

/-- Witness for C7 at a concrete whitespace-only selection: all three
capture operations post `noSelection` and no list or host state changes. -/
theorem c7_noSelection_rejects_witness :
    highlightSelection ['y'] c7Sel [] = ([], .noSelection)
    ∧ annotateSelection ['u'] ['y'] c7Sel [] = ([], .noSelection)
    ∧ addCommentToSelection ['n'] ['y'] c7Sel [] = ([], .noSelection)
    ∧ hostStep .noSelection c7Host = c7Host :=
  c7_noSelection_rejects ['y'] ['u'] ['n'] c7Sel [] [] [] c7Host (by decide)

/-! Section:Claim C8 -/

/-- C8 (amended): a successful highlight capture stores the current page
number and context strings of at most 20 characters taken immediately
before (a tail segment of the text preceding the selection in its parent
node; empty if extraction errs) and immediately after the selection; the
stored text is the selected string with surrounding whitespace trimmed on
the direct single-span wrap path, but on the fallback path taken when
`range.surroundContents` throws (multi-node selection) the stored text is
the wrapped span's raw `textContent`, i.e. the UNtrimmed selection. -/
theorem c8_capture_fields (color : List Char) (sel : Selection)
    (hs : List HighlightData) (hne : trimChars sel.raw ≠ [])
    (hok : sel.multiNode = false ∨ sel.fallbackFails = false) :
    ∃ d : HighlightData,
      highlightSelection color sel hs = (hs ++ [d], .highlightAdded d)
      ∧ (sel.multiNode = false → d.text = trimChars sel.raw)
      ∧ (sel.multiNode = true → d.text = sel.raw)
      ∧ d.page = sel.page
      ∧ d.textBefore.length ≤ 20
      ∧ (∃ k, d.textBefore = sel.preText.drop k)
      ∧ d.textAfter.length ≤ 20
      ∧ (∃ m, d.textAfter = sel.postText.take m) := by
  cases hmn : sel.multiNode with
  | false =>
    refine ⟨⟨color, trimChars sel.raw, sel.page, sel.now,
             getTextBefore sel 20, getTextAfter sel 20⟩, ?_, ?_, ?_, rfl,
            getTextBefore_length_le sel 20 (by omega),
            getTextBefore_is_drop sel 20,
            getTextAfter_length_le sel 20,
            getTextAfter_is_take sel 20⟩
    · simp [highlightSelection, hne, hmn]
    · intro _; rfl
    · intro hcontra; cases hcontra
  | true =>
    have hff : sel.fallbackFails = false := by
      cases hok with
      | inl h => rw [hmn] at h; cases h
      | inr h => exact h
    refine ⟨⟨color, sel.raw, sel.page, sel.now,
             getTextBefore sel 20, getTextAfter sel 20⟩, ?_, ?_, ?_, rfl,
            getTextBefore_length_le sel 20 (by omega),
            getTextBefore_is_drop sel 20,
            getTextAfter_length_le sel 20,
            getTextAfter_is_take sel 20⟩
    · simp [highlightSelection, hne, hmn, hff]
    · intro hcontra; cases hcontra
    · intro _; rfl

/-- A multi-node selection ` hi` (leading space) whose direct wrap throws
and whose fallback succeeds. -/
def c8Sel : Selection := ⟨[' ', 'h', 'i'], 1, 0, [], [], true, false, false, false⟩

/-- Counterexample to C8 as stated: on the fallback path the stored
anchor's text is the raw selection ` hi`, which differs from the trimmed
selection `hi` the claim requires. -/
theorem c8_fallback_stores_untrimmed :
    (highlightSelection ['y'] c8Sel []).1
      = [⟨['y'], [' ', 'h', 'i'], 1, 0, [], []⟩]
    ∧ trimChars c8Sel.raw = ['h', 'i']
    ∧ (⟨['y'], [' ', 'h', 'i'], 1, 0, [], []⟩ : HighlightData).text
        ≠ trimChars c8Sel.raw := by
  refine ⟨rfl, by decide, by decide⟩

/-- A single-node selection ` a` with one character of parent text on each
side, captured at page 1, instant 7. -/
def c8WSel : Selection := ⟨[' ', 'a'], 1, 7, ['p'], ['q'], false, false, false, false⟩

/-- The anchor the C8 witness capture stores. -/
def c8WData : HighlightData := ⟨['y'], ['a'], 1, 7, ['p'], ['q']⟩

/-- Witness for C8 at a concrete single-node selection: the capture stores
the trimmed text, the current page, and in-bound context strings. -/
theorem c8_capture_fields_witness :
    highlightSelection ['y'] c8WSel [] = ([c8WData], .highlightAdded c8WData)
    ∧ c8WData.text = trimChars c8WSel.raw
    ∧ c8WData.page = c8WSel.page
    ∧ c8WData.textBefore.length ≤ 20
    ∧ c8WData.textAfter.length ≤ 20 := by
  obtain ⟨d, hd, htext, _, hpage, hblen, _, halen, _⟩ :=
    c8_capture_fields ['y'] c8WSel [] (by decide) (Or.inl rfl)
  have hEval : highlightSelection ['y'] c8WSel []
      = ([c8WData], .highlightAdded c8WData) := rfl
  have hfst := congrArg Prod.fst (hEval.symm.trans hd)
  simp only [List.nil_append] at hfst
  have hdd : c8WData = d := by
    injection hfst with h1 _
  rw [← hdd] at htext hpage hblen halen
  exact ⟨hEval, htext rfl, hpage, hblen, halen⟩

/-! Section:Claim C10 -/

/-- C10 (amended): the context-extraction helpers never propagate an
exception — whenever the underlying DOM range operations throw, the catch
branch returns the empty string, so capture never aborts because of context
extraction — and `getTextAfter` returns at most `n` characters for every
`n`, while `getTextBefore` does so for every `n ≥ 1` (for `n = 0` the
source computes `text.slice(-0) = text.slice(0)` and returns the whole
preceding text). -/
theorem c10_context_helpers_total (r : Selection) (n : Nat) :
    (getTextAfter r n).length ≤ n
    ∧ (1 ≤ n → (getTextBefore r n).length ≤ n)
    ∧ (r.beforeThrows = true → getTextBefore r n = [])
    ∧ (r.afterThrows = true → getTextAfter r n = []) := by
  refine ⟨getTextAfter_length_le r n, fun hn => getTextBefore_length_le r n hn,
          ?_, ?_⟩
  · intro h; simp [getTextBefore, getTextBeforeE, h]
  · intro h; simp [getTextAfter, getTextAfterE, h]

/-- A selection whose context extractions succeed. -/
def c10Sel : Selection :=
  ⟨['s'], 1, 0, ['a', 'b', 'c'], ['d', 'e'], false, false, false, false⟩

/-- A selection whose context extractions throw. -/
def c10SelThrows : Selection :=
  ⟨['s'], 1, 0, ['a', 'b', 'c'], ['d', 'e'], false, false, true, true⟩

/-- Witness for C10 at concrete selections: in-bound results when the DOM
operations succeed, empty strings when they throw. -/
theorem c10_context_helpers_total_witness :
    (getTextAfter c10Sel 2).length ≤ 2
    ∧ (getTextBefore c10Sel 2).length ≤ 2
    ∧ getTextBefore c10SelThrows 2 = []
    ∧ getTextAfter c10SelThrows 2 = [] :=
  ⟨(c10_context_helpers_total c10Sel 2).1,
   (c10_context_helpers_total c10Sel 2).2.1 (by omega),
   (c10_context_helpers_total c10SelThrows 2).2.2.1 rfl,
   (c10_context_helpers_total c10SelThrows 2).2.2.2 rfl⟩

/-- A selection with two characters of preceding parent text. -/
def c10Zero : Selection :=
  ⟨['s'], 1, 0, ['a', 'b'], [], false, false, false, false⟩

/-- Counterexample to C10 as stated: for requested length `n = 0`,
`getTextBefore` returns the entire two-character preceding text
(JavaScript `slice(-0)` is `slice(0)`), violating the claimed bound
`length ≤ n`. -/
theorem c10_before_zero_exceeds :
    getTextBefore c10Zero 0 = ['a', 'b']
    ∧ ¬((getTextBefore c10Zero 0).length ≤ 0) := by
  refine ⟨rfl, by decide⟩

end PdfViewer
